import Mathlib

/-!
Shallow embedding of `src/plugins/catalog/src/components/CatalogPage/utils/timeUtil.js`:
the time/greeting helper (`getTimeBasedGreeting`) and the `ScaffolderClient`
(`scaffold`, `getTask` headers, `streamLogs` URL construction and event handling).

Modelling conventions:
- JS objects imported from the locale JSON files are modelled as association
  lists `List (String × String)`; `Object.keys` is `List.map Prod.fst` and
  object indexing by key is `List.lookup` (JS objects have no duplicate keys).
- The process-start value `greetingRandomSeed = Math.floor(Math.random() * 1000000)`
  and the call-time value `new Date(Date.now()).getHours()` are passed as
  explicit arguments (`seed`, `currentHour`).
- `JSON.parse` / `response.json()` are external library calls; they are modelled
  by a parse function argument (returning `none` where `JSON.parse` throws),
  or by an `Option`-valued field carrying the parse result of the body.
- JS string truthiness (`if (event.data)`, `token && ...`): `undefined` and the
  empty string are falsy; a possibly-undefined string is `Option String`.
- The zen-observable subscriber is modelled by an explicit state: once
  `complete()` or `error()` has been observed (or the consumer unsubscribed),
  the subscription is closed and further `next`/`error`/`complete` calls are
  ignored, exactly as zen-observable guards them.
-/

namespace TimeUtil

/-- The `{language, greeting}` pair returned by `getTimeBasedGreeting`.
`greeting` is `Option String` because JS object indexing can yield `undefined`. -/
structure Greeting where
  language : String
  greeting : Option String
deriving Repr, DecidableEq

/-- The inner `timeOfDay` arrow function of `getTimeBasedGreeting`:
`hour < 12` selects the goodMorning set, `hour < 17` the goodAfternoon set,
otherwise the goodEvening set. -/
def timeOfDay (goodMorning goodAfternoon goodEvening : List (String × String))
    (hour : Nat) : List (String × String) :=
  if hour < 12 then goodMorning
  else if hour < 17 then goodAfternoon
  else goodEvening

/-- `getTimeBasedGreeting` from timeUtil.js. `seed` is the module-level
`greetingRandomSeed`, `currentHour` is `new Date(Date.now()).getHours()`.
The inner `random` arrow function indexes `Object.keys(greetings)` at
`seed % length`; the result is `none` exactly when that JS indexing would be
out of bounds (empty key array), in which case the JS object would have held
`undefined` fields. -/
def getTimeBasedGreeting (seed : Nat)
    (goodMorning goodAfternoon goodEvening : List (String × String))
    (currentHour : Nat) : Option Greeting :=
  if currentHour ≥ 23 then
    some { language := "Seriously", greeting := some "Get some rest" }
  else
    let greetings := timeOfDay goodMorning goodAfternoon goodEvening currentHour
    let keys := greetings.map Prod.fst
    match keys.get? (seed % keys.length) with
    | none => none
    | some k => some { language := k, greeting := greetings.lookup k }

/-- The hour-of-day bucket that `getTimeBasedGreeting` distinguishes:
3 = the `≥ 23` override, 0 = morning, 1 = afternoon, 2 = evening. -/
def hourBucket (hour : Nat) : Nat :=
  if hour ≥ 23 then 3
  else if hour < 12 then 0
  else if hour < 17 then 1
  else 2

end TimeUtil

namespace ScaffolderClient

/-- Result of `response.json()` on the scaffold response, seen through the
`as { id: string }` cast: only the `id` field is consulted. `id = none` models
a JSON body without an `id` property (the field would be `undefined`). -/
structure JsonObject where
  id : Option String
deriving Repr, DecidableEq

/-- The fields of a `fetch` response that `scaffold` consults.
`jsonBody` is the result of `response.json()`: `none` when the body text is not
valid JSON (where `response.json()` rejects). -/
structure HttpResponse where
  status : Nat
  statusText : String
  bodyText : String
  jsonBody : Option JsonObject
deriving Repr, DecidableEq

/-- The error message thrown by `scaffold` on a non-201 response:
`Backend request failed, ${status} ${statusText} ${body.trim()}`. -/
def scaffoldErrorMessage (r : HttpResponse) : String :=
  "Backend request failed, " ++ (toString r.status ++ " " ++ r.statusText) ++
    (" " ++ r.bodyText.trim)

/-- `ScaffolderClient.scaffold`, from the response onward: non-201 throws the
backend-request-failed error; on 201 the body is parsed as JSON (a parse
failure rejects, as `response.json()` does) and the `id` field is returned. -/
def scaffold (r : HttpResponse) : Except String (Option String) :=
  if r.status ≠ 201 then
    Except.error (scaffoldErrorMessage r)
  else
    match r.jsonBody with
    | none => Except.error "Unexpected end of JSON input"
    | some j => Except.ok j.id

/-- Whether `scaffold` rejects (the promise is rejected / an error is thrown). -/
def scaffoldRaises (r : HttpResponse) : Bool :=
  match scaffold r with
  | Except.error _ => true
  | Except.ok _ => false

/-- `sub` occurs as a contiguous substring of `s`. -/
def containsStr (s sub : String) : Prop :=
  ∃ pre post, s = pre ++ (sub ++ post)

/-- Headers of the `scaffold` POST request:
`Content-Type` always, and `Authorization: Bearer ${token}` spread in when the
token is truthy (`...(token && { Authorization: ... })`). -/
def scaffoldRequestHeaders (token : Option String) : List (String × String) :=
  ("Content-Type", "application/json") ::
    (match token with
     | some t => if t = "" then [] else [("Authorization", "Bearer " ++ t)]
     | none => [])

/-- Headers of the `getTask` GET request:
`token ? { Authorization: Bearer ... } : {}`. -/
def getTaskRequestHeaders (token : Option String) : List (String × String) :=
  match token with
  | some t => if t = "" then [] else [("Authorization", "Bearer " ++ t)]
  | none => []

/-- Headers of the `streamLogs` event-stream connection. The code opens
`new EventSource(url)`: the `EventSource` constructor accepts no header map and
`streamLogs` never reads the identity token, so no request header is attached
regardless of the token. -/
def streamLogsRequestHeaders (_token : Option String) : List (String × String) :=
  []

/-- The URL `streamLogs` opens its `EventSource` against. `enc` is
`encodeURIComponent`. The code fills a `URLSearchParams` object with `after`
but never appends it to the URL string, so the params are dead. -/
def streamLogsUrl (enc : String → String) (baseUrl taskId : String)
    (after : Option Nat) : String :=
  let _params : List (String × String) :=
    match after with
    | some n => [("after", toString n)]
    | none => []
  baseUrl ++ "/v2/tasks/" ++ enc taskId ++ "/eventstream"

/-- The URL claimed by the spec:
`{baseUrl}/v2/tasks/{taskId}/eventstream[?after=N]`, the query string present
exactly when `after` is defined. -/
def streamLogsUrlPerSpec (enc : String → String) (baseUrl taskId : String)
    (after : Option Nat) : String :=
  baseUrl ++ "/v2/tasks/" ++ enc taskId ++ "/eventstream" ++
    (match after with
     | some n => "?after=" ++ toString n
     | none => "")

/-- An inbound `EventSource` event: a named `log` or `completion` event whose
`data` field may be absent, or a transport `error` event. -/
inductive StreamEvent where
  | log (data : Option String)
  | completion (data : Option String)
  | error
deriving Repr, DecidableEq

/-- A call observed by the subscriber: `next` with a parsed payload,
`complete`, or `error`. -/
inductive OutEvent (α : Type) where
  | next (v : α)
  | complete
  | errored
deriving Repr, DecidableEq

/-- State of one zen-observable subscription to `streamLogs`:
the calls delivered so far, whether the subscription is closed
(after `complete`/`error`/unsubscribe), and whether the `EventSource`
connection has been closed. -/
structure SubState (α : Type) where
  outs : List (OutEvent α)
  closed : Bool
  eventSourceClosed : Bool
deriving Repr, DecidableEq

/-- `subscriber.next(v)`: ignored once the subscription is closed. -/
def subNext {α : Type} (st : SubState α) (v : α) : SubState α :=
  if st.closed then st else { st with outs := st.outs ++ [OutEvent.next v] }

/-- `subscriber.error(e)`: closes the subscription; ignored if already closed. -/
def subError {α : Type} (st : SubState α) : SubState α :=
  if st.closed then st
  else { st with outs := st.outs ++ [OutEvent.errored], closed := true }

/-- `subscriber.complete()`: closes the subscription; ignored if already closed. -/
def subComplete {α : Type} (st : SubState α) : SubState α :=
  if st.closed then st
  else { st with outs := st.outs ++ [OutEvent.complete], closed := true }

/-- JS truthiness of the `event.data` string: `undefined` and `""` are falsy. -/
def truthyData : Option String → Bool
  | none => false
  | some s => s != ""

/-- The shared body of the `log` and `completion` listeners:
`if (event.data) { try { subscriber.next(JSON.parse(event.data)) } catch (ex) { subscriber.error(ex) } }`.
`parse` models `JSON.parse`, returning `none` where it would throw. -/
def deliverData {α : Type} (parse : String → Option α) (st : SubState α)
    (d : Option String) : SubState α :=
  match d with
  | none => st
  | some s =>
    if s == "" then st
    else
      match parse s with
      | some v => subNext st v
      | none => subError st

/-- The three event listeners `streamLogs` registers on the `EventSource`:
`log` delivers the parsed data, `completion` delivers the parsed data and then
calls `subscriber.complete()`, `error` calls `subscriber.error(event)`.
None of them closes the `EventSource`. -/
def handleEvent {α : Type} (parse : String → Option α) (st : SubState α) :
    StreamEvent → SubState α
  | StreamEvent.log d => deliverData parse st d
  | StreamEvent.completion d => subComplete (deliverData parse st d)
  | StreamEvent.error => subError st

/-- Subscription state right after the `EventSource` is opened. -/
def initState (α : Type) : SubState α :=
  { outs := [], closed := false, eventSourceClosed := false }

/-- Run one subscription against a sequence of inbound events, in order. -/
def processEvents {α : Type} (parse : String → Option α)
    (events : List StreamEvent) : SubState α :=
  events.foldl (handleEvent parse) (initState α)

/-- The cleanup function zen-observable runs when the subscription ends or the
consumer unsubscribes: the return value of the subscriber arrow function in
`streamLogs`. That function has no return statement, so there is no cleanup. -/
def streamLogsTeardown {α : Type} : Option (SubState α → SubState α) :=
  none

/-- Consumer-side `subscription.unsubscribe()`: zen-observable closes the
subscription and runs the cleanup returned by the subscriber function, if any. -/
def unsubscribe {α : Type} (st : SubState α) : SubState α :=
  let st' := { st with closed := true }
  match streamLogsTeardown (α := α) with
  | some f => f st'
  | none => st'

/-- The delivery sequence the spec describes for one subscription: payloads of
data-carrying events in arrival order; a `completion` event delivers its
payload via `next` and then completes the sequence; a stream error (a transport
`error` event or a malformed payload, per the spec's error-handling section)
surfaces `error` and ends the sequence; events with absent/empty data deliver
no payload; nothing is delivered after the sequence has ended. -/
def deliveredPerSpec {α : Type} (parse : String → Option α) :
    List StreamEvent → List (OutEvent α)
  | [] => []
  | StreamEvent.log none :: es => deliveredPerSpec parse es
  | StreamEvent.log (some s) :: es =>
    if s == "" then deliveredPerSpec parse es
    else
      match parse s with
      | some v => OutEvent.next v :: deliveredPerSpec parse es
      | none => [OutEvent.errored]
  | StreamEvent.completion none :: _ => [OutEvent.complete]
  | StreamEvent.completion (some s) :: _ =>
    if s == "" then [OutEvent.complete]
    else
      match parse s with
      | some v => [OutEvent.next v, OutEvent.complete]
      | none => [OutEvent.errored]
  | StreamEvent.error :: _ => [OutEvent.errored]

/-- Whether an inbound event ends the subscription: any `completion` event, any
transport `error` event, or a non-empty payload that fails to parse. -/
def isTerminalEvent {α : Type} (parse : String → Option α) : StreamEvent → Bool
  | StreamEvent.log none => false
  | StreamEvent.log (some s) => if s == "" then false else (parse s).isNone
  | StreamEvent.completion _ => true
  | StreamEvent.error => true

end ScaffolderClient

namespace TimeUtil

/-- Helper: a key drawn from the key list of an association list has a value. -/
theorem lookup_isSome_of_mem_keys (l : List (String × String)) (k : String)
    (hk : k ∈ l.map Prod.fst) : ∃ v, l.lookup k = some v := by
  induction l with
  | nil => simp at hk
  | cons p l ih =>
    by_cases hak : k = p.1
    · exact ⟨p.2, by simp [List.lookup, hak]⟩
    · have hmem : k ∈ l.map Prod.fst := by
        rcases List.mem_map.mp hk with ⟨q, hq, hqk⟩
        rcases List.mem_cons.mp hq with rfl | hq'
        · exact absurd hqk.symm hak
        · exact List.mem_map.mpr ⟨q, hq', hqk⟩
      rcases ih hmem with ⟨v, hv⟩
      refine ⟨v, ?_⟩
      have hbeq : (k == p.1) = false := beq_eq_false_iff_ne.mpr hak
      simpa [List.lookup, hbeq] using hv

end TimeUtil

namespace TimeUtil

/-- C7: for every hour at or after 23, `getTimeBasedGreeting` returns exactly
the fixed pair `{language: "Seriously", greeting: "Get some rest"}`,
independently of the locale sets and of the process-start seed. -/
theorem getTimeBasedGreeting_lateNight (seed : Nat)
    (gm ga ge : List (String × String)) (h : Nat) (hh : 23 ≤ h) :
    getTimeBasedGreeting seed gm ga ge h
      = some { language := "Seriously", greeting := some "Get some rest" } := by
  unfold getTimeBasedGreeting
  simp [hh]

/-- Witness for C7 at hour 23 with arbitrary locale data and seed 5. -/
theorem getTimeBasedGreeting_lateNight_witness :
    getTimeBasedGreeting 5 [("English", "Good Morning")] [] [] 23
      = some { language := "Seriously", greeting := some "Get some rest" } :=
  getTimeBasedGreeting_lateNight 5 [("English", "Good Morning")] [] [] 23
    (by decide)

/-- C6: for every hour below 23, `getTimeBasedGreeting` selects the morning
set when `h < 12`, the afternoon set when `12 ≤ h < 17`, the evening set when
`17 ≤ h < 23`, and within the selected set returns the entry whose key is
`keys[seed % keys.length]`, as `{language: key, greeting: value at key}`. -/
theorem getTimeBasedGreeting_daytime (seed : Nat)
    (gm ga ge : List (String × String)) (h : Nat) (hh : h < 23) :
    (h < 12 → timeOfDay gm ga ge h = gm) ∧
    (12 ≤ h → h < 17 → timeOfDay gm ga ge h = ga) ∧
    (17 ≤ h → timeOfDay gm ga ge h = ge) ∧
    (∀ k,
      ((timeOfDay gm ga ge h).map Prod.fst).get?
          (seed % ((timeOfDay gm ga ge h).map Prod.fst).length) = some k →
      getTimeBasedGreeting seed gm ga ge h
        = some { language := k,
                 greeting := (timeOfDay gm ga ge h).lookup k }) := by
  refine ⟨?_, ?_, ?_, ?_⟩
  · intro h12
    simp [timeOfDay, h12]
  · intro h12 h17
    simp [timeOfDay, Nat.not_lt.mpr h12, h17]
  · intro h17
    have h12 : ¬ h < 12 := Nat.not_lt.mpr (le_trans (by norm_num) h17)
    simp [timeOfDay, h12, Nat.not_lt.mpr h17]
  · intro k hk
    have hif : getTimeBasedGreeting seed gm ga ge h
        = (match ((timeOfDay gm ga ge h).map Prod.fst).get?
              (seed % ((timeOfDay gm ga ge h).map Prod.fst).length) with
           | none => none
           | some k =>
             some { language := k,
                    greeting := (timeOfDay gm ga ge h).lookup k }) := by
      unfold getTimeBasedGreeting
      rw [if_neg (by omega)]
    rw [hif, hk]

/-- Witness for C6 at hour 9 (morning) with seed 7 over a two-entry morning
set: key index 7 % 2 = 1 selects the second entry. -/
theorem getTimeBasedGreeting_daytime_witness :
    getTimeBasedGreeting 7
      [("English", "Good Morning"), ("Spanish", "Buenos Dias")] [] [] 9
      = some { language := "Spanish", greeting := some "Buenos Dias" } :=
  ((getTimeBasedGreeting_daytime 7
      [("English", "Good Morning"), ("Spanish", "Buenos Dias")] [] [] 9
      (by decide)).2.2.2 "Spanish" (by decide)).trans (by decide)

end TimeUtil

namespace TimeUtil

/-- C8 counterexample: with the same process seed (0) and the same locale data,
a call at hour 9 (morning bucket) and a call at hour 13 (afternoon bucket)
return different results, so two calls in the same process are not always
identical when the current time is re-evaluated between them. -/
theorem getTimeBasedGreeting_changesAcrossBuckets :
    getTimeBasedGreeting 0 [("a", "b")] [("c", "d")] [("e", "f")] 9
      ≠ getTimeBasedGreeting 0 [("a", "b")] [("c", "d")] [("e", "f")] 13 := by
  decide

/-- C8 (amended): two calls in the same process run (same seed, same locale
data) return an identical result whenever the two observed hours fall in the
same hour bucket (morning, afternoon, evening, or the ≥ 23 override). -/
theorem getTimeBasedGreeting_sameBucket (seed : Nat)
    (gm ga ge : List (String × String)) (h1 h2 : Nat)
    (hb : hourBucket h1 = hourBucket h2) :
    getTimeBasedGreeting seed gm ga ge h1
      = getTimeBasedGreeting seed gm ga ge h2 := by
  unfold hourBucket at hb
  unfold getTimeBasedGreeting timeOfDay
  split_ifs at hb ⊢ <;> first | rfl | omega

/-- Witness for C8 (amended): hours 9 and 11 are both in the morning bucket,
and the two calls agree. -/
theorem getTimeBasedGreeting_sameBucket_witness :
    getTimeBasedGreeting 7 [("English", "Good Morning")] [] [] 9
      = getTimeBasedGreeting 7 [("English", "Good Morning")] [] [] 11 :=
  getTimeBasedGreeting_sameBucket 7 [("English", "Good Morning")] [] [] 9 11
    (by decide)

/-- C9: for every seed and hour below 23 whose selected locale set is
non-empty, the selection index `seed % keys.length` is strictly below
`keys.length`, and `getTimeBasedGreeting` totally returns a pair whose
greeting is the selected set's value at the returned language key (no
undefined access). -/
theorem getTimeBasedGreeting_inBounds (seed : Nat)
    (gm ga ge : List (String × String)) (h : Nat) (hh : h < 23)
    (hne : timeOfDay gm ga ge h ≠ []) :
    seed % ((timeOfDay gm ga ge h).map Prod.fst).length
        < ((timeOfDay gm ga ge h).map Prod.fst).length ∧
    ∃ k v, getTimeBasedGreeting seed gm ga ge h
          = some { language := k, greeting := some v } ∧
        (timeOfDay gm ga ge h).lookup k = some v := by
  have hlen : 0 < ((timeOfDay gm ga ge h).map Prod.fst).length := by
    simpa [List.length_map, List.length_pos] using hne
  have hmod : seed % ((timeOfDay gm ga ge h).map Prod.fst).length
      < ((timeOfDay gm ga ge h).map Prod.fst).length := Nat.mod_lt _ hlen
  refine ⟨hmod, ?_⟩
  set keys := (timeOfDay gm ga ge h).map Prod.fst with hkeys
  have hget : keys.get? (seed % keys.length)
      = some (keys.get ⟨seed % keys.length, hmod⟩) := List.get?_eq_get hmod
  set k := keys.get ⟨seed % keys.length, hmod⟩ with hkdef
  have hkmem : k ∈ keys := List.get_mem keys _ hmod
  rcases lookup_isSome_of_mem_keys (timeOfDay gm ga ge h) k
      (by simpa [hkeys] using hkmem) with ⟨v, hv⟩
  refine ⟨k, v, ?_, hv⟩
  have hif : getTimeBasedGreeting seed gm ga ge h
      = (match keys.get? (seed % keys.length) with
         | none => none
         | some k' =>
           some { language := k',
                  greeting := (timeOfDay gm ga ge h).lookup k' }) := by
    unfold getTimeBasedGreeting
    rw [if_neg (by omega)]
  rw [hif, hget]
  simp [hv]

/-- Witness for C9 at seed 3, hour 0, one-entry morning set. -/
theorem getTimeBasedGreeting_inBounds_witness :
    3 % (([("English", "Good Morning")] : List (String × String)).map
          Prod.fst).length
        < (([("English", "Good Morning")] : List (String × String)).map
          Prod.fst).length ∧
    ∃ k v, getTimeBasedGreeting 3 [("English", "Good Morning")] [] [] 0
          = some { language := k, greeting := some v } ∧
        ([("English", "Good Morning")] : List (String × String)).lookup k
          = some v :=
  getTimeBasedGreeting_inBounds 3 [("English", "Good Morning")] [] [] 0
    (by decide) (by decide)

end TimeUtil

namespace ScaffolderClient

/-- A mocked 201 response whose body is the JSON object with id "abc". -/
def respCreated : HttpResponse :=
  { status := 201, statusText := "Created",
    bodyText := "\x7b\"id\":\"abc\"\x7d",
    jsonBody := some { id := some "abc" } }

/-- A mocked 500 response with a plain-text body. -/
def respServerError : HttpResponse :=
  { status := 500, statusText := "Internal Server Error",
    bodyText := "  something broke  ", jsonBody := none }

/-- A 201 response with an empty body: `JSON.parse("")` throws, so
`response.json()` rejects. -/
def respCreatedEmptyBody : HttpResponse :=
  { status := 201, statusText := "Created", bodyText := "", jsonBody := none }

/-- C1 counterexample: a 201 response whose body is not valid JSON makes
`scaffold` reject even though the status is 201, so "scaffold raises an error
if and only if the status is not 201" fails as stated. -/
theorem scaffold_rejects_on_201_invalid_json :
    respCreatedEmptyBody.status = 201 ∧
    scaffoldRaises respCreatedEmptyBody = true := by
  exact ⟨rfl, rfl⟩

/-- C1 (amended): on a 201 response whose body parses as JSON, `scaffold`
resolves to the `id` field of the body; on any non-201 response it rejects
with an error containing the HTTP status line and the trimmed body text; and
`scaffold` raises an error iff the status is not 201 or the 201 body fails to
parse as JSON. -/
theorem scaffold_response_handling (r : HttpResponse) :
    (∀ j, r.status = 201 → r.jsonBody = some j →
      scaffold r = Except.ok j.id) ∧
    (r.status ≠ 201 →
      scaffold r = Except.error (scaffoldErrorMessage r) ∧
      containsStr (scaffoldErrorMessage r)
        (toString r.status ++ " " ++ r.statusText) ∧
      containsStr (scaffoldErrorMessage r) r.bodyText.trim) ∧
    (scaffoldRaises r = true ↔ (r.status ≠ 201 ∨ r.jsonBody = none)) := by
  refine ⟨?_, ?_, ?_⟩
  · intro j h201 hj
    simp [scaffold, h201, hj]
  · intro hne
    refine ⟨by simp [scaffold, hne], ?_, ?_⟩
    · refine ⟨"Backend request failed, ", " " ++ r.bodyText.trim, ?_⟩
      rw [scaffoldErrorMessage, String.append_assoc]
    · refine ⟨"Backend request failed, " ++
        (toString r.status ++ " " ++ r.statusText) ++ " ", "", ?_⟩
      simp [scaffoldErrorMessage, String.append_assoc, String.append_empty]
  · constructor
    · intro hr
      by_cases h201 : r.status = 201
      · cases hj : r.jsonBody with
        | none => exact Or.inr rfl
        | some j => simp [scaffoldRaises, scaffold, h201, hj] at hr
      · exact Or.inl h201
    · intro hor
      rcases hor with hne | hj
      · simp [scaffoldRaises, scaffold, hne]
      · by_cases h201 : r.status = 201
        · simp [scaffoldRaises, scaffold, h201, hj]
        · simp [scaffoldRaises, scaffold, h201]

/-- Witness for C1 (amended): the mocked 201 response with body
x7b"id":"abc"x7d resolves to "abc"; the mocked 500 response rejects with the
backend-request-failed error message. -/
theorem scaffold_response_handling_witness :
    scaffold respCreated = Except.ok (some "abc") ∧
    scaffold respServerError
      = Except.error (scaffoldErrorMessage respServerError) :=
  ⟨(scaffold_response_handling respCreated).1 { id := some "abc" } rfl rfl,
   ((scaffold_response_handling respServerError).2.1 (by decide)).1⟩

/-- C4 counterexample: with identity token "abc" supplied, the scaffold POST
carries the Bearer header but the streamLogs event-stream connection carries
no headers at all, so not every outbound request gets the Authorization
header. -/
theorem streamLogs_missing_auth_header :
    ("Authorization", "Bearer " ++ "abc") ∈ scaffoldRequestHeaders (some "abc")
      ∧ streamLogsRequestHeaders (some "abc") = [] := by
  constructor
  · simp [scaffoldRequestHeaders]
  · rfl

/-- C4 (amended): for every truthy (non-empty) identity token, the scaffold
POST and the getTask GET carry `Authorization: Bearer ${token}`, while the
streamLogs EventSource connection is opened without any request headers. -/
theorem auth_header_attachment (t : String) (ht : t ≠ "") :
    ("Authorization", "Bearer " ++ t) ∈ scaffoldRequestHeaders (some t) ∧
    getTaskRequestHeaders (some t) = [("Authorization", "Bearer " ++ t)] ∧
    streamLogsRequestHeaders (some t) = [] := by
  refine ⟨?_, ?_, rfl⟩
  · simp [scaffoldRequestHeaders, ht]
  · simp [getTaskRequestHeaders, ht]

/-- Witness for C4 (amended) at token "abc". -/
theorem auth_header_attachment_witness :
    ("Authorization", "Bearer " ++ "abc")
        ∈ scaffoldRequestHeaders (some "abc") ∧
    getTaskRequestHeaders (some "abc")
        = [("Authorization", "Bearer " ++ "abc")] ∧
    streamLogsRequestHeaders (some "abc") = [] :=
  auth_header_attachment "abc" (by decide)

/-- C5: the `after` argument never reaches the URL. When `after` is undefined
the opened URL agrees with the spec's queryless URL, but with `after = 5` the
code still opens `{baseUrl}/v2/tasks/{taskId}/eventstream` — the
`URLSearchParams` carrying `after` is built and then dropped — which differs
from the spec's `...eventstream?after=5`. -/
theorem streamLogsUrl_ignores_after :
    (∀ (enc : String → String) (baseUrl taskId : String),
      streamLogsUrl enc baseUrl taskId none
        = streamLogsUrlPerSpec enc baseUrl taskId none) ∧
    streamLogsUrl id "http://localhost:7007/api/scaffolder" "a-task" (some 5)
      = "http://localhost:7007/api/scaffolder/v2/tasks/a-task/eventstream" ∧
    streamLogsUrl id "http://localhost:7007/api/scaffolder" "a-task" (some 5)
      ≠ streamLogsUrlPerSpec id "http://localhost:7007/api/scaffolder"
          "a-task" (some 5) := by
  refine ⟨?_, rfl, ?_⟩
  · intro enc baseUrl taskId
    rw [streamLogsUrl, streamLogsUrlPerSpec]
    rw [String.append_empty]
  · decide

end ScaffolderClient

namespace ScaffolderClient

/-- Helper: every listener leaves a closed subscription unchanged
(zen-observable ignores `next`/`error`/`complete` after closure). -/
theorem handleEvent_of_closed {α : Type} (parse : String → Option α)
    (st : SubState α) (hc : st.closed = true) (e : StreamEvent) :
    handleEvent parse st e = st := by
  have hdel : ∀ d, deliverData parse st d = st := by
    intro d
    cases d with
    | none => rfl
    | some s =>
      by_cases hs : s == ""
      · simp [deliverData, hs]
      · cases hp : parse s <;> simp [deliverData, hs, hp, subNext, subError, hc]
  cases e with
  | log d => simpa [handleEvent] using hdel d
  | completion d =>
    simp [handleEvent, hdel, subComplete, hc]
  | error => simp [handleEvent, subError, hc]

/-- Helper: once the subscription is closed, the rest of the event sequence
changes nothing. -/
theorem foldl_of_closed {α : Type} (parse : String → Option α)
    (es : List StreamEvent) (st : SubState α) (hc : st.closed = true) :
    es.foldl (handleEvent parse) st = st := by
  induction es with
  | nil => rfl
  | cons e es ih =>
    rw [List.foldl_cons, handleEvent_of_closed parse st hc e]
    exact ih

/-- Helper: no listener touches the EventSource: the `eventSourceClosed` flag
is preserved by every inbound event. -/
theorem handleEvent_eventSourceClosed {α : Type} (parse : String → Option α)
    (st : SubState α) (e : StreamEvent) :
    (handleEvent parse st e).eventSourceClosed = st.eventSourceClosed := by
  have hdel : ∀ d, (deliverData parse st d).eventSourceClosed
      = st.eventSourceClosed := by
    intro d
    cases d with
    | none => rfl
    | some s =>
      by_cases hs : s == ""
      · simp [deliverData, hs]
      · cases hp : parse s <;>
          by_cases hc : st.closed <;>
          simp [deliverData, hs, hp, subNext, subError, hc]
  cases e with
  | log d => simpa [handleEvent] using hdel d
  | completion d =>
    by_cases hc : (deliverData parse st d).closed <;>
      simp [handleEvent, subComplete, hc, hdel d]
  | error =>
    by_cases hc : st.closed <;> simp [handleEvent, subError, hc]

/-- Helper: the `eventSourceClosed` flag is preserved by any event sequence. -/
theorem foldl_eventSourceClosed {α : Type} (parse : String → Option α)
    (es : List StreamEvent) (st : SubState α) :
    (es.foldl (handleEvent parse) st).eventSourceClosed
      = st.eventSourceClosed := by
  induction es generalizing st with
  | nil => rfl
  | cons e es ih =>
    rw [List.foldl_cons, ih, handleEvent_eventSourceClosed]

/-- Helper: running the listeners from any open subscription state appends
exactly the spec-described delivery sequence, and closes the subscription
exactly when the sequence contains a terminal event. -/
theorem foldl_of_open {α : Type} (parse : String → Option α)
    (es : List StreamEvent) :
    ∀ (st : SubState α), st.closed = false →
      (es.foldl (handleEvent parse) st).outs
          = st.outs ++ deliveredPerSpec parse es ∧
      (es.foldl (handleEvent parse) st).closed
          = es.any (isTerminalEvent parse) := by
  induction es with
  | nil =>
    intro st hst
    simp [deliveredPerSpec, hst]
  | cons e es ih =>
    intro st hst
    cases e with
    | log d =>
      cases d with
      | none =>
        have he : handleEvent parse st (StreamEvent.log none) = st := rfl
        rw [List.foldl_cons, he]
        rcases ih st hst with ⟨h1, h2⟩
        refine ⟨?_, ?_⟩
        · rw [h1]; simp [deliveredPerSpec]
        · rw [h2]; simp [isTerminalEvent]
      | some s =>
        by_cases hs : s == ""
        · have hseq : s = "" := by simpa using hs
          subst hseq
          have he : handleEvent parse st (StreamEvent.log (some "")) = st := by
            simp [handleEvent, deliverData]
          rw [List.foldl_cons, he]
          rcases ih st hst with ⟨h1, h2⟩
          refine ⟨?_, ?_⟩
          · rw [h1]; simp [deliveredPerSpec]
          · rw [h2]; simp [isTerminalEvent]
        · cases hp : parse s with
          | some v =>
            have he : handleEvent parse st (StreamEvent.log (some s))
                = { st with outs := st.outs ++ [OutEvent.next v] } := by
              simp [handleEvent, deliverData, hs, hp, subNext, hst]
            rw [List.foldl_cons, he]
            rcases ih { st with outs := st.outs ++ [OutEvent.next v] } hst
              with ⟨h1, h2⟩
            refine ⟨?_, ?_⟩
            · rw [h1]; simp [deliveredPerSpec, hs, hp]
            · rw [h2]; simp [isTerminalEvent, hs, hp]
          | none =>
            have he : handleEvent parse st (StreamEvent.log (some s))
                = { st with outs := st.outs ++ [OutEvent.errored],
                            closed := true } := by
              simp [handleEvent, deliverData, hs, hp, subError, hst]
            rw [List.foldl_cons, he, foldl_of_closed parse es _ rfl]
            refine ⟨?_, ?_⟩
            · simp [deliveredPerSpec, hs, hp]
            · simp [isTerminalEvent, hs, hp]
    | completion d =>
      have hterm : isTerminalEvent parse (StreamEvent.completion d) = true := rfl
      cases d with
      | none =>
        have he : handleEvent parse st (StreamEvent.completion none)
            = { st with outs := st.outs ++ [OutEvent.complete],
                        closed := true } := by
          simp [handleEvent, deliverData, subComplete, hst]
        rw [List.foldl_cons, he, foldl_of_closed parse es _ rfl]
        refine ⟨by simp [deliveredPerSpec], by simp [hterm]⟩
      | some s =>
        by_cases hs : s == ""
        · have hseq : s = "" := by simpa using hs
          subst hseq
          have he : handleEvent parse st (StreamEvent.completion (some ""))
              = { st with outs := st.outs ++ [OutEvent.complete],
                          closed := true } := by
            simp [handleEvent, deliverData, subComplete, hst]
          rw [List.foldl_cons, he, foldl_of_closed parse es _ rfl]
          refine ⟨by simp [deliveredPerSpec], by simp [hterm]⟩
        · cases hp : parse s with
          | some v =>
            have he : handleEvent parse st (StreamEvent.completion (some s))
                = { st with
                      outs := st.outs
                        ++ [OutEvent.next v, OutEvent.complete],
                      closed := true } := by
              simp [handleEvent, deliverData, hs, hp, subNext, subComplete,
                hst]
            rw [List.foldl_cons, he, foldl_of_closed parse es _ rfl]
            refine ⟨by simp [deliveredPerSpec, hs, hp], by simp [hterm]⟩
          | none =>
            have he : handleEvent parse st (StreamEvent.completion (some s))
                = { st with outs := st.outs ++ [OutEvent.errored],
                            closed := true } := by
              simp [handleEvent, deliverData, hs, hp, subError, subComplete,
                hst]
            rw [List.foldl_cons, he, foldl_of_closed parse es _ rfl]
            refine ⟨by simp [deliveredPerSpec, hs, hp], by simp [hterm]⟩
    | error =>
      have he : handleEvent parse st StreamEvent.error
          = { st with outs := st.outs ++ [OutEvent.errored],
                      closed := true } := by
        simp [handleEvent, subError, hst]
      rw [List.foldl_cons, he, foldl_of_closed parse es _ rfl]
      refine ⟨by simp [deliveredPerSpec], by simp [isTerminalEvent]⟩

end ScaffolderClient

namespace ScaffolderClient

/-- C2: for every inbound event sequence, the subscription delivers exactly
the spec-described calls — log payloads in arrival order, the completion
payload via `next` immediately before `complete`, an error surfaced as a
terminal `error` with nothing after it — and the produced sequence is closed
iff the inbound sequence contains a terminating event: a `completion` event,
a transport `error` event, or a malformed payload (which the spec's
error-handling section classifies as a stream error). -/
theorem streamLogs_delivery {α : Type} (parse : String → Option α)
    (events : List StreamEvent) :
    (processEvents parse events).outs = deliveredPerSpec parse events ∧
    ((processEvents parse events).closed = true ↔
      ∃ e ∈ events, isTerminalEvent parse e = true) := by
  rcases foldl_of_open parse events (initState α) rfl with ⟨h1, h2⟩
  constructor
  · simpa [processEvents, initState] using h1
  · show (events.foldl (handleEvent parse) (initState α)).closed = true ↔
        ∃ e ∈ events, isTerminalEvent parse e = true
    rw [h2, List.any_eq_true]

/-- C3 (code bug): no matter what the stream delivers and even after the
consumer unsubscribes, the `EventSource` connection is never closed — the
listeners never call `close()` and the subscriber function returns no
teardown, so the connection leaks. -/
theorem streamLogs_connection_leak {α : Type} (parse : String → Option α)
    (events : List StreamEvent) :
    (processEvents parse events).eventSourceClosed = false ∧
    (unsubscribe (processEvents parse events)).eventSourceClosed = false := by
  have h0 : (processEvents parse events).eventSourceClosed = false := by
    simpa [processEvents, initState]
      using foldl_eventSourceClosed parse events (initState α)
  refine ⟨h0, ?_⟩
  simpa [unsubscribe, streamLogsTeardown] using h0

/-- Helper: a `next` call produced by the shared data-delivery body comes
either from before, or from a non-empty `data` string that parses to the
delivered value. -/
theorem deliverData_next_mem {α : Type} (parse : String → Option α)
    (st : SubState α) (d : Option String) (v : α)
    (hv : OutEvent.next v ∈ (deliverData parse st d).outs) :
    OutEvent.next v ∈ st.outs ∨
      ∃ s, d = some s ∧ s ≠ "" ∧ parse s = some v := by
  cases d with
  | none => exact Or.inl hv
  | some s =>
    by_cases hs : s == ""
    · rw [deliverData, if_pos hs] at hv
      exact Or.inl hv
    · rw [deliverData, if_neg hs] at hv
      cases hp : parse s with
      | some w =>
        rw [hp] at hv
        by_cases hc : st.closed
        · simp only [subNext, hc, if_true] at hv
          exact Or.inl hv
        · simp only [subNext, hc, if_false, Bool.false_eq_true] at hv
          rcases List.mem_append.mp hv with hl | hr
          · exact Or.inl hl
          · have hvw : v = w := by
              cases List.mem_singleton.mp hr
              rfl
            exact Or.inr ⟨s, rfl, by simpa using hs, by rw [hp, hvw]⟩
      | none =>
        rw [hp] at hv
        by_cases hc : st.closed
        · simp only [subError, hc, if_true] at hv
          exact Or.inl hv
        · simp only [subError, hc, if_false, Bool.false_eq_true] at hv
          rcases List.mem_append.mp hv with hl | hr
          · exact Or.inl hl
          · cases List.mem_singleton.mp hr


/-- C10: an inbound event whose `data` is absent or empty delivers no payload:
a `log` event leaves the subscription unchanged, a `completion` event still
completes the sequence but calls no `next`; and `subscriber.next` is invoked
only by an event carrying non-empty data that parses as JSON, with the parsed
value as the payload. -/
theorem streamLogs_empty_data {α : Type} (parse : String → Option α)
    (st : SubState α) (d : Option String) (hd : truthyData d = false) :
    handleEvent parse st (StreamEvent.log d) = st ∧
    handleEvent parse st (StreamEvent.completion d) = subComplete st ∧
    (∀ (e : StreamEvent) (v : α),
      OutEvent.next v ∈ (handleEvent parse st e).outs →
      OutEvent.next v ∈ st.outs ∨
        ∃ s, (e = StreamEvent.log (some s)
              ∨ e = StreamEvent.completion (some s))
          ∧ s ≠ "" ∧ parse s = some v) := by
  have hdel : deliverData parse st d = st := by
    cases d with
    | none => rfl
    | some s =>
      have hs : s = "" := by simpa [truthyData] using hd
      subst hs
      rfl
  refine ⟨by simp [handleEvent, hdel], by simp [handleEvent, hdel], ?_⟩
  intro e v hv
  cases e with
  | log d' =>
    rcases deliverData_next_mem parse st d' v (by simpa [handleEvent] using hv)
      with hl | ⟨s, rfl, hne, hp⟩
    · exact Or.inl hl
    · exact Or.inr ⟨s, Or.inl rfl, hne, hp⟩
  | completion d' =>
    have hv' : OutEvent.next v ∈ (deliverData parse st d').outs := by
      rw [handleEvent] at hv
      by_cases hc : (deliverData parse st d').closed
      · simpa [subComplete, hc] using hv
      · simp only [subComplete, hc, if_false, Bool.false_eq_true] at hv
        rcases List.mem_append.mp hv with hl | hr
        · exact hl
        · cases List.mem_singleton.mp hr
    rcases deliverData_next_mem parse st d' v hv' with hl | ⟨s, rfl, hne, hp⟩
    · exact Or.inl hl
    · exact Or.inr ⟨s, Or.inr rfl, hne, hp⟩
  | error =>
    rw [handleEvent] at hv
    by_cases hc : st.closed
    · simp only [subError, hc, if_true] at hv
      exact Or.inl hv
    · simp only [subError, hc, if_false, Bool.false_eq_true] at hv
      rcases List.mem_append.mp hv with hl | hr
      · exact Or.inl hl
      · cases List.mem_singleton.mp hr

/-- Witness for C10: an empty-data log event on a fresh subscription delivers
nothing, and an empty-data completion event just completes it. -/
theorem streamLogs_empty_data_witness :
    truthyData (some "") = false ∧
    handleEvent (fun _ => (none : Option Nat)) (initState Nat)
        (StreamEvent.log (some "")) = initState Nat ∧
    handleEvent (fun _ => (none : Option Nat)) (initState Nat)
        (StreamEvent.completion (some ""))
      = subComplete (initState Nat) :=
  ⟨by decide,
   (streamLogs_empty_data (fun _ => (none : Option Nat)) (initState Nat)
      (some "") (by decide)).1,
   (streamLogs_empty_data (fun _ => (none : Option Nat)) (initState Nat)
      (some "") (by decide)).2.1⟩

end ScaffolderClient
